import Mathlib

/-!
Verification development for the llama-gguf-inference gateway.

The repository is an async HTTP gateway (scripts/gateway.py) in front of a
llama.cpp server, with file-based API-key authentication and per-key rate
limiting (scripts/auth.py).  This file gives a shallow embedding of the
request-handling pipeline: Python strings are modelled as `List Char`,
Python dicts as insertion-ordered association lists, wall-clock instants as
rationals, and the stateful validator / concurrency gate as explicit state
passing plus a small-step transition relation for the interleaving claims.
-/

/-- Python strings are modelled as lists of characters. -/
abbrev PyStr := List Char

/-- The six ASCII whitespace characters recognised by Python's `str.strip()`
(for the ASCII inputs this system handles). -/
def pyIsSpace (c : Char) : Bool :=
  c == ' ' || c == '\t' || c == '\n' || c == '\r' || c == '\x0b' || c == '\x0c'

/-- ASCII lower-casing of a single character, as `str.lower()` acts on the
ASCII inputs of this system. -/
def pyLowerChar (c : Char) : Char :=
  match c with
  | 'A' => 'a' | 'B' => 'b' | 'C' => 'c' | 'D' => 'd' | 'E' => 'e'
  | 'F' => 'f' | 'G' => 'g' | 'H' => 'h' | 'I' => 'i' | 'J' => 'j'
  | 'K' => 'k' | 'L' => 'l' | 'M' => 'm' | 'N' => 'n' | 'O' => 'o'
  | 'P' => 'p' | 'Q' => 'q' | 'R' => 'r' | 'S' => 's' | 'T' => 't'
  | 'U' => 'u' | 'V' => 'v' | 'W' => 'w' | 'X' => 'x' | 'Y' => 'y'
  | 'Z' => 'z' | c => c

/-- `str.lower()`. -/
def pyLower (l : PyStr) : PyStr := l.map pyLowerChar

/-- `str.strip()`: drop leading and trailing whitespace. -/
def pyStrip (l : PyStr) : PyStr :=
  ((l.dropWhile pyIsSpace).reverse.dropWhile pyIsSpace).reverse

/-- `str.startswith(p)`. -/
def pyStartsWith (l p : PyStr) : Bool := decide (l.take p.length = p)

/-- `c in s` for a single character. -/
def pyContains (l : PyStr) (c : Char) : Bool := l.any (· == c)

/-- Helper for `str.split()` (no argument): accumulates the current run of
non-whitespace characters in reverse. -/
def pySplitWsAux : PyStr → PyStr → List PyStr
  | [], cur => if cur = [] then [] else [cur.reverse]
  | c :: rest, cur =>
    if pyIsSpace c then
      if cur = [] then pySplitWsAux rest []
      else cur.reverse :: pySplitWsAux rest []
    else pySplitWsAux rest (c :: cur)

/-- `str.split()` with no argument: split on whitespace runs, no empties. -/
def pySplitWs (l : PyStr) : List PyStr := pySplitWsAux l []

/-- `str.split(sep, 1)` restricted to the case where `sep` occurs:
the part before the first `sep` and the remainder after it. -/
def pySplitOn1 (sep : Char) : PyStr → PyStr × PyStr
  | [] => ([], [])
  | c :: rest =>
    if c = sep then ([], rest)
    else
      let (a, b) := pySplitOn1 sep rest
      (c :: a, b)

/-- `str.split(sep, maxsplit)`: at most `maxsplit` splits. -/
def pySplitOnMax (sep : Char) : Nat → PyStr → List PyStr
  | 0, l => [l]
  | n + 1, l =>
    if pyContains l sep then
      let (a, b) := pySplitOn1 sep l
      a :: pySplitOnMax sep n b
    else [l]

/-- Decimal digits to a natural number (used by the `int()` model). -/
def digitsToNat (l : PyStr) : Option Nat :=
  if l ≠ [] ∧ l.all Char.isDigit then
    some (l.foldl (fun n c => 10 * n + (c.toNat - 48)) 0)
  else none

/-- Python `int(s)` on an already-stripped string: optional sign followed by
decimal digits; `none` models the `ValueError` raised otherwise. -/
def pyInt (l : PyStr) : Option Int :=
  match l with
  | '+' :: r => (digitsToNat r).map (fun n => (n : Int))
  | '-' :: r => (digitsToNat r).map (fun n => -(n : Int))
  | _ => (digitsToNat l).map (fun n => (n : Int))

/-- Lookup in an insertion-ordered association list (Python dict read). -/
def alookup {α β : Type} [DecidableEq α] : List (α × β) → α → Option β
  | [], _ => none
  | (k, v) :: rest, key => if k = key then some v else alookup rest key

/-- Update-or-append in an insertion-ordered association list
(Python dict write: existing keys keep their position). -/
def aset {α β : Type} [DecidableEq α] : List (α × β) → α → β → List (α × β)
  | [], key, v => [(key, v)]
  | (k, w) :: rest, key, v =>
    if k = key then (key, v) :: rest else (k, w) :: aset rest key v

/-- `APIKeyValidator._is_valid_format`: 16–128 characters, each alphanumeric
or `-`/`_`. -/
def isValidFormat (key : PyStr) : Bool :=
  if 16 ≤ key.length ∧ key.length ≤ 128 then
    key.all (fun c => c.isAlphanum || c == '-' || c == '_')
  else false

/-- The `key_id` validation in `_load_keys`: nonempty, alphanumeric or
`-`/`_`. -/
def isValidKeyId (kid : PyStr) : Bool :=
  !(kid.isEmpty) && kid.all (fun c => c.isAlphanum || c == '-' || c == '_')

/-! ## Auth validator state (`auth.APIKeyValidator`) -/

/-- The mutable state of `APIKeyValidator`.  Timestamps (`time.time()` and
`datetime` instants alike) are modelled as rationals. -/
structure VState where
  enabled : Bool
  /-- `self.keys`: api_key → key_id, in file/insertion order. -/
  keys : List (PyStr × PyStr)
  /-- `self.key_rate_limits`: key_id → per-key requests per minute. -/
  keyRateLimits : List (PyStr × Int)
  /-- `self.key_expirations`: key_id → expiration instant. -/
  keyExpirations : List (PyStr × ℚ)
  /-- `self.rate_limiter`: key_id → recorded request timestamps. -/
  rateLimiter : List (PyStr × List ℚ)
  /-- `self.max_requests_per_minute`. -/
  maxRequestsPerMinute : Int
  /-- `self._last_cleanup`. -/
  lastCleanup : ℚ
  deriving Repr, DecidableEq

/-- `APIKeyValidator.CLEANUP_INTERVAL` (seconds). -/
def CLEANUP_INTERVAL : ℚ := 300

/-- `_find_key`: fold over every stored key, recording the key_id of a
matching secret but never returning early (`hmac.compare_digest` is modelled
as equality of the two strings). -/
def findKey (keys : List (PyStr × PyStr)) (apiKey : PyStr) : Option PyStr :=
  keys.foldl (fun result kv => if kv.1 = apiKey then some kv.2 else result) none

/-- Instrumented shadow of `_find_key` that additionally counts how many
stored secrets were compared against the presented token; its first
component is proved equal to `findKey`. -/
def findKeyScan (keys : List (PyStr × PyStr)) (apiKey : PyStr) :
    Option PyStr × Nat :=
  keys.foldl
    (fun acc kv => (if kv.1 = apiKey then some kv.2 else acc.1, acc.2 + 1))
    (none, 0)

/-- `_cleanup_rate_limiter`: at most every `CLEANUP_INTERVAL` seconds,
drop the rate-limiter entries of keys with no timestamp in the trailing
60-second window. -/
def cleanupRateLimiter (now : ℚ) (st : VState) : VState :=
  if now - st.lastCleanup < CLEANUP_INTERVAL then st
  else
    { st with
      lastCleanup := now
      rateLimiter :=
        st.rateLimiter.filter (fun kv => kv.2.any (fun ts => decide (now - 60 < ts))) }

/-- `_check_rate_limit`: run the periodic cleanup, prune this key's
timestamps older than 60 seconds (writing the pruned list back), then
compare the remaining count against the per-key limit if present, else the
process default.  Returns `false` when the limit is reached. -/
def checkRateLimit (kid : PyStr) (now : ℚ) (st : VState) : Bool × VState :=
  let st1 := cleanupRateLimiter now st
  let pruned :=
    ((alookup st1.rateLimiter kid).getD []).filter (fun ts => decide (now - 60 < ts))
  let st2 := { st1 with rateLimiter := aset st1.rateLimiter kid pruned }
  let effectiveLimit := (alookup st2.keyRateLimits kid).getD st2.maxRequestsPerMinute
  if effectiveLimit ≤ (pruned.length : Int) then (false, st2) else (true, st2)

/-- `_record_request`: append the current timestamp for the key. -/
def recordRequest (kid : PyStr) (now : ℚ) (st : VState) : VState :=
  { st with
    rateLimiter :=
      aset st.rateLimiter kid (((alookup st.rateLimiter kid).getD []) ++ [now]) }

/-- `_is_key_expired`: a key with an expiration is expired once
`datetime.now() >= expiration`. -/
def isKeyExpired (kid : PyStr) (nowDt : ℚ) (st : VState) : Bool :=
  match alookup st.keyExpirations kid with
  | none => false
  | some expiration => decide (expiration ≤ nowDt)

/-- The bearer-token extraction of `validate` (auth.py lines 253–257):
strip a case-insensitive `Bearer ` marker if the header value starts with
one, then trim whitespace. -/
def extractApiKey (authHeader : PyStr) : PyStr :=
  if pyStartsWith (pyLower authHeader) "bearer ".toList then
    pyStrip (authHeader.drop 7)
  else pyStrip authHeader

/-- `APIKeyValidator.validate`: returns `(is_valid, key_id_or_error)` and the
updated validator state.  `nowDt` is the `datetime.now()` instant used for
expiration, `now` the `time.time()` instant used for rate limiting. -/
def validate (st : VState) (nowDt now : ℚ) (headers : List (PyStr × PyStr)) :
    (Bool × PyStr) × VState :=
  if st.enabled = false then ((true, "auth-disabled".toList), st)
  else if st.keys = [] then
    ((false, "Authentication misconfigured: no API keys loaded".toList), st)
  else
    let authHeader := (alookup headers "authorization".toList).getD []
    if authHeader = [] then ((false, "Missing Authorization header".toList), st)
    else
      let apiKey := extractApiKey authHeader
      if apiKey = [] then ((false, "Empty Authorization header".toList), st)
      else if isValidFormat apiKey = false then
        ((false, "Invalid API key format".toList), st)
      else
        match findKey st.keys apiKey with
        | none => ((false, "Invalid API key".toList), st)
        | some kid =>
          if isKeyExpired kid nowDt st then
            ((false, "API key has expired".toList), st)
          else
            let (ok, st1) := checkRateLimit kid now st
            if ok = false then ((false, "rate_limit_exceeded".toList), st1)
            else ((true, kid), recordRequest kid now st1)

/-- Sequential validation of one request per timestamp (all with the same
headers), threading the validator state. -/
def runValidate (nowDt : ℚ) (headers : List (PyStr × PyStr)) :
    VState → List ℚ → List (Bool × PyStr) × VState
  | st, [] => ([], st)
  | st, t :: rest =>
    let r := validate st nowDt t headers
    let rs := runValidate nowDt headers r.2 rest
    (r.1 :: rs.1, rs.2)

/-- The header dict of a request authenticating with `Bearer <secret>`
(keys lower-cased by `handle_client`). -/
def bearerHeaders (secret : PyStr) : List (PyStr × PyStr) :=
  [("authorization".toList, "Bearer ".toList ++ secret)]

/-! ## HTTP error responses sent by the auth layer and the gateway -/

/-- The reply-relevant fields of a canned HTTP error response. -/
structure HttpResp where
  status : Nat
  retryAfter : Option Nat
  errorType : PyStr
  errorCode : PyStr
  deriving Repr, DecidableEq

/-- `auth.send_rate_limit_error`: 429 with `Retry-After: 60` and error code
`rate_limit_exceeded`. -/
def rateLimitErrorResponse : HttpResp :=
  { status := 429
    retryAfter := some 60
    errorType := "rate_limit_error".toList
    errorCode := "rate_limit_exceeded".toList }

/-- The 401 branch of `auth.authenticate_request`. -/
def unauthorizedResponse : HttpResp :=
  { status := 401
    retryAfter := none
    errorType := "invalid_request_error".toList
    errorCode := "invalid_api_key".toList }

/-- The response selection of `auth.authenticate_request` on a failed
validation: `rate_limit_exceeded` is answered by `send_rate_limit_error`,
everything else by the OpenAI-style 401. -/
def authErrorResponse (reason : PyStr) : HttpResp :=
  if reason = "rate_limit_exceeded".toList then rateLimitErrorResponse
  else unauthorizedResponse

/-- `gateway.send_queue_full_response`: 503 with `Retry-After: 5` and error
code `queue_full`. -/
def queueFullResponse : HttpResp :=
  { status := 503
    retryAfter := some 5
    errorType := "server_error".toList
    errorCode := "queue_full".toList }

/-! ## Key-file loading and reload (`auth._load_keys`, `auth.reload_keys`)

`datetime.datetime.fromisoformat` is a library routine; it is abstracted as
a `parseIso` parameter returning `some` instant on a valid ISO-8601 string
and `none` where the library would raise `ValueError`. -/

/-- The rate-limit field validation in `_load_keys`: empty, or an `int()`
that parses and is positive. -/
def rateLimitFieldOk (s : PyStr) : Bool :=
  s.isEmpty ||
    match pyInt s with
    | some rl => decide (0 < rl)
    | none => false

/-- The expiration field validation in `_load_keys`: empty, or accepted by
`datetime.fromisoformat`. -/
def expirationFieldOk (parseIso : PyStr → Option ℚ) (s : PyStr) : Bool :=
  s.isEmpty || (parseIso s).isSome

/-- One iteration of the `_load_keys` line loop: strip the line, skip
comments/blank lines, split into at most four `:`-separated fields, validate
each field, skip duplicate secrets, and otherwise append to the key dict and
the raw-metadata list. -/
def loadKeysLine (parseIso : PyStr → Option ℚ)
    (acc : List (PyStr × PyStr) × List (PyStr × PyStr × PyStr))
    (rawLine : PyStr) :
    List (PyStr × PyStr) × List (PyStr × PyStr × PyStr) :=
  let line := pyStrip rawLine
  if line = [] then acc
  else if pyStartsWith line "#".toList then acc
  else if pyContains line ':' = false then acc
  else
    let parts := pySplitOnMax ':' 3 line
    if parts.length < 2 then acc
    else
      let keyId := pyStrip (parts.getD 0 [])
      let apiKey := pyStrip (parts.getD 1 [])
      let rateLimitStr := if 2 < parts.length then pyStrip (parts.getD 2 []) else []
      let expirationStr := if 3 < parts.length then pyStrip (parts.getD 3 []) else []
      if isValidKeyId keyId = false then acc
      else if isValidFormat apiKey = false then acc
      else if rateLimitFieldOk rateLimitStr = false then acc
      else if expirationFieldOk parseIso expirationStr = false then acc
      else if (alookup acc.1 apiKey).isSome then acc
      else (acc.1 ++ [(apiKey, keyId)], acc.2 ++ [(keyId, rateLimitStr, expirationStr)])

/-- `_load_keys` over the lines of an existing keys file: reset the raw
metadata, return empty tables at once when authentication is disabled
(auth.py lines 113–114), and otherwise run the line loop, returning the
api_key → key_id dict and the raw `(key_id, rate_limit_str, expiration_str)`
metadata collected for later parsing. -/
def loadKeys (enabled : Bool) (parseIso : PyStr → Option ℚ)
    (fileLines : List PyStr) :
    List (PyStr × PyStr) × List (PyStr × PyStr × PyStr) :=
  if enabled = false then ([], [])
  else fileLines.foldl (loadKeysLine parseIso) ([], [])

/-- The metadata parse shared by `_parse_key_metadata` and `reload_keys`
(auth.py lines 447–451): build fresh per-key rate-limit and expiration dicts
from the raw metadata.  The fallback branches (`getD 0`, skip) are
unreachable because `_load_keys` already validated both fields. -/
def parseKeyMetadata (parseIso : PyStr → Option ℚ)
    (raw : List (PyStr × PyStr × PyStr)) :
    List (PyStr × Int) × List (PyStr × ℚ) :=
  raw.foldl
    (fun acc entry =>
      let limits :=
        if entry.2.1 = [] then acc.1
        else aset acc.1 entry.1 ((pyInt entry.2.1).getD 0)
      let expirations :=
        if entry.2.2 = [] then acc.2
        else
          match parseIso entry.2.2 with
          | some e => aset acc.2 entry.1 e
          | none => acc.2
      (limits, expirations))
    ([], [])

/-- `auth.reload_keys`: re-read the keys file via `_load_keys` (which
consults the validator's `enabled` flag), build the key dict and fresh
metadata dicts, swap all three into the validator, and return the number of
keys loaded.  The rate limiter (and the remaining validator fields) are left
untouched. -/
def reloadKeys (parseIso : PyStr → Option ℚ) (fileLines : List PyStr)
    (st : VState) : Nat × VState :=
  let loaded := loadKeys st.enabled parseIso fileLines
  let meta := parseKeyMetadata parseIso loaded.2
  (loaded.1.length,
    { st with
      keys := loaded.1
      keyRateLimits := meta.1
      keyExpirations := meta.2 })

/-! ## CORS policy (`gateway._cors_origins_list`, `gateway.get_cors_headers`) -/

/-- `gateway._cors_origins_list`: split the configured value on commas,
strip whitespace from each entry, and drop entries that are empty after
stripping. -/
def parseCorsOrigins (s : PyStr) : List PyStr :=
  ((s.splitOn ',').map pyStrip).filter (fun o => o ≠ [])

/-- The header block built by `get_cors_headers`: the four fixed lines, plus
`Vary: Origin` in allow-list (non-wildcard) mode. -/
def corsHeaderLines (allowedOrigin : PyStr) (vary : Bool) : List PyStr :=
  ["Access-Control-Allow-Origin: ".toList ++ allowedOrigin,
   "Access-Control-Allow-Methods: GET, POST, OPTIONS".toList,
   "Access-Control-Allow-Headers: Authorization, Content-Type".toList,
   "Access-Control-Max-Age: 86400".toList] ++
  (if vary then ["Vary: Origin".toList] else [])

/-- `gateway.get_cors_headers`: empty when CORS is disabled (no configured
origins); the wildcard set when `*` is configured; the echoed origin plus
`Vary: Origin` when the request origin is exactly a configured entry; empty
otherwise. -/
def getCorsHeaders (origins : List PyStr) (requestOrigin : PyStr) :
    List PyStr :=
  if origins = [] then []
  else if "*".toList ∈ origins then corsHeaderLines "*".toList false
  else if requestOrigin ∈ origins then corsHeaderLines requestOrigin true
  else []

/-! ## Connection handler (`gateway.handle_client`), request phase -/

/-- Where `handle_client` routes a parsed request. -/
inductive HCRoute where
  | options
  | ping
  | health
  | metricsEndpoint
  | authThenProxy
  deriving Repr, DecidableEq

/-- The routing of `handle_client` lines 654–682: OPTIONS preflight first,
then the three unauthenticated endpoints, then authentication followed by
the queued proxy. -/
def routeOf (method path : PyStr) : HCRoute :=
  if method = "OPTIONS".toList then .options
  else if path = "/ping".toList then .ping
  else if path = "/health".toList then .health
  else if path = "/metrics".toList then .metricsEndpoint
  else .authThenProxy

/-- The header-reading loop of `handle_client` (lines 631–642): lines with a
colon are stripped, lower-cased on the key, and entered into the header
dict; a `Content-Length` key updates the declared body length via `int()`,
whose `ValueError` on a non-numeric value is modelled as `none`. -/
def parseHeaderLines :
    List PyStr → List (PyStr × PyStr) → Int →
    Option (List (PyStr × PyStr) × Int)
  | [], headers, contentLength => some (headers, contentLength)
  | rawLine :: rest, headers, contentLength =>
    let headerLine := pyStrip rawLine
    if pyContains headerLine ':' then
      let kv := pySplitOn1 ':' headerLine
      let headers' := aset headers (pyLower (pyStrip kv.1)) (pyStrip kv.2)
      if pyLower kv.1 = "content-length".toList then
        match pyInt (pyStrip kv.2) with
        | none => none
        | some n => parseHeaderLines rest headers' n
      else parseHeaderLines rest headers' contentLength
    else parseHeaderLines rest headers contentLength

/-- The observable outcome of the request phase of `handle_client`. -/
inductive HCOutcome where
  /-- Fewer than two request-line parts: the handler returns silently. -/
  | noResponse
  /-- `int()` raised on `Content-Length`; the broad `except` logs and
  closes without any response. -/
  | handlerException
  /-- The handler proceeds: `bodyRead = some n` means it goes on to await
  exactly `n` declared body bytes from the client socket before routing. -/
  | proceed (method path : PyStr) (headers : List (PyStr × PyStr))
      (bodyRead : Option Int) (route : HCRoute)
  deriving Repr, DecidableEq

/-- The request phase of `gateway.handle_client` (lines 617–682): parse the
request line, run the header loop, then — whenever the declared
`Content-Length` is positive, with no size ceiling of any kind — read
exactly that many body bytes before routing the request. -/
def handleClient (requestLineRaw : PyStr) (headerLines : List PyStr) :
    HCOutcome :=
  let requestLine := pyStrip requestLineRaw
  let parts := pySplitWs requestLine
  if parts.length < 2 then .noResponse
  else
    match parseHeaderLines headerLines [] 0 with
    | none => .handlerException
    | some (headers, contentLength) =>
      .proceed (parts.getD 0 []) (parts.getD 1 []) headers
        (if 0 < contentLength then some contentLength else none)
        (routeOf (parts.getD 0 []) (parts.getD 1 []))

/-! ## Proxy engine (`gateway.proxy_request`) -/

/-- The behaviours of the backend connection that drive the branches of
`proxy_request`. -/
inductive BackendBehavior where
  /-- `asyncio.open_connection` times out or fails. -/
  | connectFail
  /-- The request forwards and the response (whatever its status line says)
  streams back to the client without an exception. -/
  | completes (backendStatus : Nat)
  /-- Any exception after the connect succeeds. -/
  | exceptionMidway
  deriving Repr, DecidableEq

/-- The gateway metrics counters touched by `proxy_request`. -/
structure MetricsSt where
  requestsTotal : Int
  requestsSuccess : Int
  requestsError : Int
  requestsActive : Int
  deriving Repr, DecidableEq

/-- What a `proxy_request` call leaves behind. -/
structure ProxyResult where
  metrics : MetricsSt
  /-- The status line written to the client by the gateway's own error
  paths; on completion the backend's response is forwarded verbatim. -/
  gatewayErrorStatus : Option Nat
  /-- The status recorded in the access log. -/
  loggedStatus : Nat
  deriving Repr, DecidableEq

/-- `gateway.proxy_request` (lines 446–572): the connect-failure branch
answers 502 and logs 502; the normal completion path logs the literal 200
(line 554) no matter what status the backend returned; the broad exception
handler answers 502 and logs 502; `requests_active` is restored in
`finally`. -/
def proxyRequest (beh : BackendBehavior) (m : MetricsSt) : ProxyResult :=
  let m1 := { m with
    requestsTotal := m.requestsTotal + 1
    requestsActive := m.requestsActive + 1 }
  match beh with
  | .connectFail =>
    { metrics := { m1 with
        requestsError := m1.requestsError + 1
        requestsActive := m1.requestsActive - 1 }
      gatewayErrorStatus := some 502
      loggedStatus := 502 }
  | .completes _ =>
    { metrics := { m1 with
        requestsSuccess := m1.requestsSuccess + 1
        requestsActive := m1.requestsActive - 1 }
      gatewayErrorStatus := none
      loggedStatus := 200 }
  | .exceptionMidway =>
    { metrics := { m1 with
        requestsError := m1.requestsError + 1
        requestsActive := m1.requestsActive - 1 }
      gatewayErrorStatus := some 502
      loggedStatus := 502 }

/-! ## Concurrency gate (`gateway._queued_proxy`) -/

/-- The static concurrency configuration: `MAX_CONCURRENT_REQUESTS` and
`MAX_QUEUE_SIZE`. -/
structure GateCfg where
  capacity : Nat
  maxQueue : Nat
  deriving Repr, DecidableEq

/-- The shared gate state: the semaphore value, the explicit `_queue_depth`
counter, the number of tasks currently inside `proxy_request`, and
`metrics.queue_rejections`. -/
structure GateSt where
  sem : Nat
  depth : Nat
  active : Nat
  rejections : Nat
  deriving Repr, DecidableEq

/-- What the synchronous admission prefix of `_queued_proxy` does. -/
inductive AdmitOutcome where
  | rejected (resp : HttpResp)
  | enqueued
  deriving Repr, DecidableEq

/-- The synchronous admission prefix of `_queued_proxy` (lines 589–598): if
`MAX_QUEUE_SIZE > 0` and the queue is full, bump `queue_rejections` and send
the 503 queue-full response without touching the semaphore; otherwise
increment `_queue_depth` and go on to await the semaphore.  There is no
suspension point between the check and the increment. -/
def queuedAdmit (cfg : GateCfg) (s : GateSt) : AdmitOutcome × GateSt :=
  if 0 < cfg.maxQueue ∧ cfg.maxQueue ≤ s.depth then
    (.rejected queueFullResponse, { s with rejections := s.rejections + 1 })
  else (.enqueued, { s with depth := s.depth + 1 })

/-- The initial gate state: a fresh semaphore at full capacity, an empty
queue, no active proxy call. -/
def gateInit (cfg : GateCfg) : GateSt := ⟨cfg.capacity, 0, 0, 0⟩

/-- One atomic step of some connection task inside `_queued_proxy`.  The
suspension points of the source (`await semaphore.acquire()`, the proxied
call, cancellation of a waiter) delimit the steps; everything between two
awaits is atomic under asyncio's cooperative scheduling. -/
inductive GStep (cfg : GateCfg) : GateSt → GateSt → Prop where
  /-- A task runs the admission prefix (either branch). -/
  | admitCall (s : GateSt) : GStep cfg s (queuedAdmit cfg s).2
  /-- A waiting task returns from `acquire()` and runs the decrement of
  `_queue_depth` before calling `proxy_request`. -/
  | acquire (s : GateSt) (hs : 0 < s.sem) (hd : 0 < s.depth) :
      GStep cfg s ⟨s.sem - 1, s.depth - 1, s.active + 1, s.rejections⟩
  /-- A waiting task is cancelled inside `acquire()` (the `BaseException`
  handler, line 601–603). -/
  | cancelWait (s : GateSt) (hd : 0 < s.depth) :
      GStep cfg s ⟨s.sem, s.depth - 1, s.active, s.rejections⟩
  /-- A proxy call finishes and the `finally` releases the semaphore. -/
  | release (s : GateSt) (ha : 0 < s.active) :
      GStep cfg s ⟨s.sem + 1, s.depth, s.active - 1, s.rejections⟩

/-- States reachable by any interleaving of admission attempts, semaphore
waits, cancellations and completions. -/
inductive GateReachable (cfg : GateCfg) : GateSt → Prop where
  | init : GateReachable cfg (gateInit cfg)
  | step {s s' : GateSt} :
      GateReachable cfg s → GStep cfg s s' → GateReachable cfg s'

/-! ## Theorems for the claims -/

/-- Claim C1 (status: code_bug).  The spec and the repository's own tests
(`TestBodySizeLimitEnforcement`) require a request whose declared
`Content-Length` exceeds `MAX_REQUEST_BODY_SIZE` to be answered 413
`payload_too_large` without reading the body, but `gateway.handle_client`
has no body-size ceiling at all: on the test's failing input
(`MAX_REQUEST_BODY_SIZE=100`, declared `Content-Length: 200`) it proceeds
to await exactly the 200 declared body bytes from the client socket and
then routes the request to auth and the proxy; no 413 is ever produced. -/
theorem C1_oversized_body_read_not_rejected :
    handleClient "POST /v1/chat/completions HTTP/1.1".toList
        ["Host: localhost".toList, "Content-Length: 200".toList] =
      .proceed "POST".toList "/v1/chat/completions".toList
        [("host".toList, "localhost".toList),
         ("content-length".toList, "200".toList)]
        (some 200) .authThenProxy := by
  rfl

/-- Claim C2 (status: code_bug).  The spec and the repository's own tests
(`TestHeaderCountLimitEnforcement`) require a request with more than
`MAX_HEADERS` header lines to be answered 431 `header_fields_too_large`
(concretely: 4 headers against `MAX_HEADERS=3`), but `gateway.handle_client`
has no header-count or header-line-size limit: on the test's failing input
all four header lines are parsed into the header dict and the request
proceeds to auth and the proxy; no 431 is ever produced. -/
theorem C2_four_headers_not_rejected :
    handleClient "GET /v1/models HTTP/1.1".toList
        ["Host: localhost".toList, "Accept: application/json".toList,
         "X-Custom-1: value1".toList, "X-Custom-2: value2".toList] =
      .proceed "GET".toList "/v1/models".toList
        [("host".toList, "localhost".toList),
         ("accept".toList, "application/json".toList),
         ("x-custom-1".toList, "value1".toList),
         ("x-custom-2".toList, "value2".toList)]
        none .authThenProxy := by
  rfl

/-- Claim C5 (status: code_bug).  The spec and the repository's own tests
(`TestCorsOriginValidation`, SEC-04) require one trailing slash to be
stripped from each configured CORS origin, so that an Origin equal to the
normalized entry matches; but `gateway._cors_origins_list` only
whitespace-trims the entries.  On the failing input
`CORS_ORIGINS="https://app.example.com/"` the entry keeps its slash and the
request Origin `https://app.example.com` gets the empty header set, while
the exact-match (substring-free) behaviour itself works as claimed. -/
theorem C5_trailing_slash_not_stripped :
    parseCorsOrigins "https://app.example.com/".toList =
        ["https://app.example.com/".toList]
    ∧ getCorsHeaders (parseCorsOrigins "https://app.example.com/".toList)
        "https://app.example.com".toList = []
    ∧ getCorsHeaders (parseCorsOrigins "https://app.example.com".toList)
        "https://app.example.com".toList =
        corsHeaderLines "https://app.example.com".toList true
    ∧ getCorsHeaders (parseCorsOrigins "https://app.example.com".toList)
        "https://evil.com?https://app.example.com".toList = [] := by
  refine ⟨by rfl, by rfl, by rfl, by rfl⟩

/-- Claim C6 (status: confirmed).  With `max_queue > 0` and the queue depth
at or above `max_queue`, the admission prefix of `_queued_proxy` rejects
immediately: the rejection counter is incremented, the client response is
the 503 queue-full response with `Retry-After: 5` and error code
`queue_full`, and the queue depth and semaphore are left untouched. -/
theorem C6_queue_full_rejected_immediately (cfg : GateCfg) (s : GateSt)
    (hq : 0 < cfg.maxQueue) (hd : cfg.maxQueue ≤ s.depth) :
    queuedAdmit cfg s =
      (.rejected queueFullResponse, { s with rejections := s.rejections + 1 })
    ∧ (queuedAdmit cfg s).2.depth = s.depth
    ∧ (queuedAdmit cfg s).2.sem = s.sem
    ∧ (queuedAdmit cfg s).2.active = s.active
    ∧ (queuedAdmit cfg s).2.rejections = s.rejections + 1
    ∧ queueFullResponse.status = 503
    ∧ queueFullResponse.retryAfter = some 5
    ∧ queueFullResponse.errorCode = "queue_full".toList := by
  have hcond : 0 < cfg.maxQueue ∧ cfg.maxQueue ≤ s.depth := ⟨hq, hd⟩
  unfold queuedAdmit
  rw [if_pos hcond]
  exact ⟨rfl, rfl, rfl, rfl, rfl, rfl, rfl, rfl⟩

/-- Witness for C6 at a concrete full queue (`max_queue = 1`, depth 1). -/
theorem C6_queue_full_rejected_immediately_witness :
    queuedAdmit ⟨1, 1⟩ ⟨1, 1, 0, 0⟩ =
      (.rejected queueFullResponse, ⟨1, 1, 0, 1⟩)
    ∧ (queuedAdmit ⟨1, 1⟩ ⟨1, 1, 0, 0⟩).2.depth = 1
    ∧ (queuedAdmit ⟨1, 1⟩ ⟨1, 1, 0, 0⟩).2.sem = 1
    ∧ (queuedAdmit ⟨1, 1⟩ ⟨1, 1, 0, 0⟩).2.active = 0
    ∧ (queuedAdmit ⟨1, 1⟩ ⟨1, 1, 0, 0⟩).2.rejections = 1
    ∧ queueFullResponse.status = 503
    ∧ queueFullResponse.retryAfter = some 5
    ∧ queueFullResponse.errorCode = "queue_full".toList := by
  exact C6_queue_full_rejected_immediately ⟨1, 1⟩ ⟨1, 1, 0, 0⟩
    (by decide) (by decide)

/-- On an enabled validator, `reload_keys` passes the `_load_keys` enabled
guard and swaps in the file-derived tables. -/
theorem reloadKeys_enabled (parseIso : PyStr → Option ℚ)
    (fileLines : List PyStr) (st : VState) (hen : st.enabled = true) :
    reloadKeys parseIso fileLines st
      = ((loadKeys true parseIso fileLines).1.length,
         { st with
           keys := (loadKeys true parseIso fileLines).1
           keyRateLimits :=
             (parseKeyMetadata parseIso (loadKeys true parseIso fileLines).2).1
           keyExpirations :=
             (parseKeyMetadata parseIso (loadKeys true parseIso fileLines).2).2 }) := by
  unfold reloadKeys
  rw [hen]

/-- Claim C8 (status: confirmed).  On an enabled validator, `reload_keys`
rebuilds the key table, per-key rate limits, and expirations into fresh
structures that depend only on the keys-file contents (`_load_keys` first
consults the `enabled` flag, which the hypothesis fixes), swaps them in,
returns the number of keys loaded, and leaves the rate-limiter timestamp
map untouched for every key_id. -/
theorem C8_reload_preserves_rate_windows (parseIso : PyStr → Option ℚ)
    (fileLines : List PyStr) (st : VState) (hen : st.enabled = true) :
    (reloadKeys parseIso fileLines st).2.rateLimiter = st.rateLimiter
    ∧ (∀ kid, alookup (reloadKeys parseIso fileLines st).2.rateLimiter kid =
        alookup st.rateLimiter kid)
    ∧ (reloadKeys parseIso fileLines st).2.keys
        = (loadKeys true parseIso fileLines).1
    ∧ (reloadKeys parseIso fileLines st).2.keyRateLimits =
        (parseKeyMetadata parseIso (loadKeys true parseIso fileLines).2).1
    ∧ (reloadKeys parseIso fileLines st).2.keyExpirations =
        (parseKeyMetadata parseIso (loadKeys true parseIso fileLines).2).2
    ∧ (reloadKeys parseIso fileLines st).1
        = (loadKeys true parseIso fileLines).1.length
    ∧ (∀ st' : VState, st'.enabled = true →
        (reloadKeys parseIso fileLines st').2.keys =
          (reloadKeys parseIso fileLines st).2.keys
        ∧ (reloadKeys parseIso fileLines st').2.keyRateLimits =
          (reloadKeys parseIso fileLines st).2.keyRateLimits
        ∧ (reloadKeys parseIso fileLines st').2.keyExpirations =
          (reloadKeys parseIso fileLines st).2.keyExpirations
        ∧ (reloadKeys parseIso fileLines st').1 =
          (reloadKeys parseIso fileLines st).1) := by
  rw [reloadKeys_enabled parseIso fileLines st hen]
  refine ⟨rfl, fun _ => rfl, rfl, rfl, rfl, rfl, fun st' hen' => ?_⟩
  rw [reloadKeys_enabled parseIso fileLines st' hen']
  exact ⟨rfl, rfl, rfl, rfl⟩

/-- Witness for C8: an enabled validator with one recorded rate-window
entry reloads a one-line keys file; the window survives and the count is
the file's. -/
theorem C8_reload_preserves_rate_windows_witness :
    (reloadKeys (fun _ => none)
        ["production:sk-prod-abc123de".toList]
        ⟨true, [], [], [], [("production".toList, [0])], 100, 0⟩).2.rateLimiter
      = [("production".toList, [0])]
    ∧ (reloadKeys (fun _ => none)
        ["production:sk-prod-abc123de".toList]
        ⟨true, [], [], [], [("production".toList, [0])], 100, 0⟩).1 = 1 := by
  have h := C8_reload_preserves_rate_windows (fun _ => none)
    ["production:sk-prod-abc123de".toList]
    ⟨true, [], [], [], [("production".toList, [0])], 100, 0⟩ rfl
  refine ⟨h.1, ?_⟩
  rw [h.2.2.2.2.2.1]
  rfl

/-- The comparison counter of `findKeyScan` always equals the table size:
the fold visits every entry. -/
theorem findKeyScan_count (keys : List (PyStr × PyStr)) (apiKey : PyStr) :
    (findKeyScan keys apiKey).2 = keys.length := by
  have h : ∀ acc : Option PyStr × Nat,
      (keys.foldl
        (fun acc kv => (if kv.1 = apiKey then some kv.2 else acc.1, acc.2 + 1))
        acc).2 = acc.2 + keys.length := by
    induction keys with
    | nil => intro acc; simp
    | cons kv rest ih =>
      intro acc
      rw [List.foldl_cons, ih]
      simp
      omega
  simpa [findKeyScan] using h (none, 0)

/-- The instrumented scan computes the same lookup result as `findKey`. -/
theorem findKeyScan_fst (keys : List (PyStr × PyStr)) (apiKey : PyStr) :
    (findKeyScan keys apiKey).1 = findKey keys apiKey := by
  have h : ∀ (acc : Option PyStr) (n : Nat),
      (keys.foldl
        (fun acc kv => (if kv.1 = apiKey then some kv.2 else acc.1, acc.2 + 1))
        (acc, n)).1 =
      keys.foldl (fun result kv => if kv.1 = apiKey then some kv.2 else result) acc := by
    induction keys with
    | nil => intro acc n; rfl
    | cons kv rest ih => intro acc n; rw [List.foldl_cons, List.foldl_cons]; exact ih _ _
  exact h none 0

/-- A fold that never meets the presented token leaves its accumulator
unchanged. -/
theorem findKey_fold_skip (keys : List (PyStr × PyStr)) (apiKey : PyStr)
    (h : apiKey ∉ keys.map Prod.fst) (acc : Option PyStr) :
    keys.foldl (fun result kv => if kv.1 = apiKey then some kv.2 else result) acc
      = acc := by
  induction keys generalizing acc with
  | nil => rfl
  | cons kv rest ih =>
    rw [List.foldl_cons]
    have hk : kv.1 ≠ apiKey := by
      intro hEq
      exact h (by simp [hEq.symm])
    rw [if_neg hk]
    exact ih (fun hmem => h (by simp at hmem ⊢; exact Or.inr hmem)) acc

/-- `findKey` succeeds exactly on tokens present in the table. -/
theorem findKey_isSome_iff (keys : List (PyStr × PyStr)) (apiKey : PyStr) :
    (findKey keys apiKey).isSome ↔ apiKey ∈ keys.map Prod.fst := by
  have h : ∀ acc : Option PyStr,
      (keys.foldl (fun result kv => if kv.1 = apiKey then some kv.2 else result)
        acc).isSome
      ↔ (acc.isSome ∨ apiKey ∈ keys.map Prod.fst) := by
    induction keys with
    | nil => intro acc; simp
    | cons kv rest ih =>
      intro acc
      rw [List.foldl_cons, ih]
      by_cases hk : kv.1 = apiKey
      · simp [hk]
      · have : apiKey ≠ kv.1 := fun hEq => hk hEq.symm
        simp [hk, this]
  rw [findKey, h none]
  simp

/-- On a table with pairwise-distinct secrets, `findKey` returns `some kid`
exactly when `(apiKey, kid)` is a table entry. -/
theorem findKey_nodup_iff (keys : List (PyStr × PyStr)) (apiKey kid : PyStr)
    (hnd : (keys.map Prod.fst).Nodup) :
    findKey keys apiKey = some kid ↔ (apiKey, kid) ∈ keys := by
  induction keys with
  | nil => simp [findKey]
  | cons kv rest ih =>
    rw [List.map_cons, List.nodup_cons] at hnd
    obtain ⟨hhead, hrest⟩ := hnd
    rw [findKey, List.foldl_cons]
    by_cases hk : kv.1 = apiKey
    · rw [if_pos hk]
      rw [findKey_fold_skip rest apiKey (hk ▸ hhead) (some kv.2)]
      constructor
      · intro hEq
        have h2 : kv.2 = kid := Option.some.inj hEq
        have hkv : (apiKey, kid) = kv := by rw [← hk, ← h2]
        rw [hkv]
        exact List.mem_cons_self kv rest
      · intro hmem
        rcases List.mem_cons.mp hmem with hEq | hmem'
        · have : kv.2 = kid := by
            have h1 : (apiKey, kid).2 = kv.2 := by rw [← hEq]
            exact h1.symm
          rw [this]
        · exfalso
          exact (hk ▸ hhead) (List.mem_map.mpr ⟨(apiKey, kid), hmem', rfl⟩)
    · rw [if_neg hk]
      rw [show (rest.foldl
          (fun result kv => if kv.1 = apiKey then some kv.2 else result) none)
          = findKey rest apiKey from rfl]
      rw [ih hrest]
      constructor
      · exact fun hmem => List.mem_cons_of_mem _ hmem
      · intro hmem
        rcases List.mem_cons.mp hmem with hEq | hmem'
        · exact absurd (by rw [← hEq]) hk
        · exact hmem'

/-- Claim C4 (status: confirmed).  `_find_key` compares the presented token
against every stored secret with no early exit — the comparison count
always equals the table size N, wherever a near-match sits — and (on the
duplicate-free tables `_load_keys` produces) returns a key_id exactly when
the token equals that entry's stored secret. -/
theorem C4_constant_time_full_scan (keys : List (PyStr × PyStr))
    (apiKey : PyStr) (hnd : (keys.map Prod.fst).Nodup) :
    (findKeyScan keys apiKey).2 = keys.length
    ∧ (findKeyScan keys apiKey).1 = findKey keys apiKey
    ∧ (∀ kid, findKey keys apiKey = some kid ↔ (apiKey, kid) ∈ keys)
    ∧ (findKey keys apiKey = none ↔ apiKey ∉ keys.map Prod.fst) := by
  refine ⟨findKeyScan_count keys apiKey, findKeyScan_fst keys apiKey,
    fun kid => findKey_nodup_iff keys apiKey kid hnd, ?_⟩
  rw [← findKey_isSome_iff keys apiKey]
  cases findKey keys apiKey <;> simp

/-- Witness for C4: a two-entry table and an absent token whose near-match
sits first; the scan still inspects both entries and rejects. -/
theorem C4_constant_time_full_scan_witness :
    (findKeyScan
      [("sk-prod-abc123de".toList, "production".toList),
       ("sk-alice-xyz789a".toList, "alice".toList)]
      "sk-prod-abc123dX".toList).2 = 2
    ∧ findKey
      [("sk-prod-abc123de".toList, "production".toList),
       ("sk-alice-xyz789a".toList, "alice".toList)]
      "sk-prod-abc123dX".toList = none := by
  have h := C4_constant_time_full_scan
    [("sk-prod-abc123de".toList, "production".toList),
     ("sk-alice-xyz789a".toList, "alice".toList)]
    "sk-prod-abc123dX".toList (by decide)
  exact ⟨h.1, h.2.2.2.mpr (by decide)⟩

/-- One step of the gate preserves the invariant: the semaphore value and
the number of active proxy calls sum to the capacity, and the queue depth
never exceeds a positive `max_queue`. -/
theorem gateInvStep {cfg : GateCfg} {s s' : GateSt} (hstep : GStep cfg s s')
    (ih : s.sem + s.active = cfg.capacity
      ∧ (0 < cfg.maxQueue → s.depth ≤ cfg.maxQueue)) :
    s'.sem + s'.active = cfg.capacity
    ∧ (0 < cfg.maxQueue → s'.depth ≤ cfg.maxQueue) := by
  cases hstep with
  | admitCall =>
    unfold queuedAdmit
    by_cases hc : 0 < cfg.maxQueue ∧ cfg.maxQueue ≤ s.depth
    · rw [if_pos hc]
      exact ⟨ih.1, ih.2⟩
    · rw [if_neg hc]
      refine ⟨ih.1, fun hq => ?_⟩
      have hlt : s.depth < cfg.maxQueue := by
        rcases Nat.lt_or_ge s.depth cfg.maxQueue with hlt | hge
        · exact hlt
        · exact absurd ⟨hq, hge⟩ hc
      exact hlt
  | acquire hs hd =>
    refine ⟨?_, fun hq => ?_⟩
    · have := ih.1; simp only; omega
    · have := ih.2 hq; simp only; omega
  | cancelWait hd =>
    refine ⟨ih.1, fun hq => ?_⟩
    have := ih.2 hq; simp only; omega
  | release ha =>
    refine ⟨?_, ih.2⟩
    have := ih.1; simp only; omega

/-- The gate invariant holds in every reachable state. -/
theorem gateInvariant {cfg : GateCfg} {s : GateSt}
    (h : GateReachable cfg s) :
    s.sem + s.active = cfg.capacity
    ∧ (0 < cfg.maxQueue → s.depth ≤ cfg.maxQueue) := by
  induction h with
  | init => exact ⟨rfl, fun _ => Nat.zero_le _⟩
  | step _ hstep ih => exact gateInvStep hstep ih

/-- Claim C7 (status: confirmed).  In every state reachable by any
interleaving of admissions, semaphore waits, cancellations and completions,
a positive `max_queue` bounds the queue depth, the number of simultaneously
active proxy calls never exceeds the capacity, and whenever the queue is
full the next admission attempt takes the rejection branch with the 503
queue-full response. -/
theorem C7_depth_bounded_and_third_rejected (cfg : GateCfg) (s : GateSt)
    (h : GateReachable cfg s) (hq : 0 < cfg.maxQueue) :
    s.depth ≤ cfg.maxQueue
    ∧ s.active ≤ cfg.capacity
    ∧ (cfg.maxQueue ≤ s.depth →
        (queuedAdmit cfg s).1 = .rejected queueFullResponse
        ∧ queueFullResponse.status = 503) := by
  obtain ⟨hcap, hdep⟩ := gateInvariant h
  refine ⟨hdep hq, by omega, fun hfull => ⟨?_, rfl⟩⟩
  unfold queuedAdmit
  rw [if_pos ⟨hq, hfull⟩]

/-- Witness for C7: with capacity 1 and `max_queue` 1, after two admissions
(one active in the proxy, one waiting in the queue) the reachable state has
at most one active proxy call and the third admission attempt is rejected
with the 503 queue-full response. -/
theorem C7_depth_bounded_and_third_rejected_witness :
    GateSt.depth ⟨0, 1, 1, 0⟩ ≤ 1
    ∧ GateSt.active ⟨0, 1, 1, 0⟩ ≤ 1
    ∧ ((1 : Nat) ≤ GateSt.depth ⟨0, 1, 1, 0⟩ →
        (queuedAdmit ⟨1, 1⟩ ⟨0, 1, 1, 0⟩).1 = .rejected queueFullResponse
        ∧ queueFullResponse.status = 503) := by
  have h1 : GateReachable ⟨1, 1⟩ ⟨1, 1, 0, 0⟩ := by
    have hstep : GStep ⟨1, 1⟩ (gateInit ⟨1, 1⟩) ⟨1, 1, 0, 0⟩ := by
      have : GStep ⟨1, 1⟩ (gateInit ⟨1, 1⟩)
          (queuedAdmit ⟨1, 1⟩ (gateInit ⟨1, 1⟩)).2 :=
        GStep.admitCall (gateInit ⟨1, 1⟩)
      have hEq : (queuedAdmit ⟨1, 1⟩ (gateInit ⟨1, 1⟩)).2 = ⟨1, 1, 0, 0⟩ := by decide
      rw [hEq] at this
      exact this
    exact GateReachable.step GateReachable.init hstep
  have h2 : GateReachable ⟨1, 1⟩ ⟨0, 0, 1, 0⟩ := by
    have hstep : GStep ⟨1, 1⟩ ⟨1, 1, 0, 0⟩ ⟨0, 0, 1, 0⟩ :=
      GStep.acquire ⟨1, 1, 0, 0⟩ (by decide) (by decide)
    exact GateReachable.step h1 hstep
  have h3 : GateReachable ⟨1, 1⟩ ⟨0, 1, 1, 0⟩ := by
    have hstep : GStep ⟨1, 1⟩ ⟨0, 0, 1, 0⟩ ⟨0, 1, 1, 0⟩ := by
      have : GStep ⟨1, 1⟩ (⟨0, 0, 1, 0⟩ : GateSt)
          (queuedAdmit ⟨1, 1⟩ ⟨0, 0, 1, 0⟩).2 :=
        GStep.admitCall (⟨0, 0, 1, 0⟩ : GateSt)
      have hEq : (queuedAdmit ⟨1, 1⟩ ⟨0, 0, 1, 0⟩).2 = ⟨0, 1, 1, 0⟩ := by decide
      rw [hEq] at this
      exact this
    exact GateReachable.step h2 hstep
  exact C7_depth_bounded_and_third_rejected ⟨1, 1⟩ ⟨0, 1, 1, 0⟩ h3 (by decide)

/-- Characters admitted by the key-format check are neither whitespace nor
lower-cased to a space. -/
theorem allowed_char_props {c : Char}
    (hc : (c.isAlphanum || c == '-' || c == '_') = true) :
    pyIsSpace c = false ∧ pyLowerChar c ≠ ' ' := by
  have hc' : (c.isAlphanum = true ∨ c = '-') ∨ c = '_' := by
    simpa [Bool.or_eq_true, beq_iff_eq] using hc
  constructor
  · by_contra hsp
    have hsp' : pyIsSpace c = true := by
      cases hps : pyIsSpace c with
      | false => exact absurd hps hsp
      | true => rfl
    have hm : ((((c = ' ' ∨ c = '\t') ∨ c = '\n') ∨ c = '\r') ∨ c = '\x0b')
        ∨ c = '\x0c' := by
      simpa [pyIsSpace, Bool.or_eq_true, beq_iff_eq] using hsp'
    rcases hm with ((((h | h) | h) | h) | h) | h <;> subst h <;>
      rcases hc' with (h2 | h2) | h2 <;> revert h2 <;> decide
  · unfold pyLowerChar
    split
    all_goals first
      | decide
      | (intro hEq; subst hEq; revert hc; decide)

/-- `dropWhile` is the identity on a list with no whitespace. -/
theorem no_space_dropWhile {l : PyStr} (h : ∀ c ∈ l, pyIsSpace c = false) :
    l.dropWhile pyIsSpace = l := by
  cases l with
  | nil => rfl
  | cons a t =>
    rw [List.dropWhile_cons, h a (List.mem_cons_self a t)]
    simp

/-- `str.strip()` is the identity on a string with no whitespace. -/
theorem strip_of_no_space {l : PyStr} (h : ∀ c ∈ l, pyIsSpace c = false) :
    pyStrip l = l := by
  unfold pyStrip
  rw [no_space_dropWhile h,
    no_space_dropWhile (fun c hc => h c (List.mem_reverse.mp hc)),
    List.reverse_reverse]

/-- A string passing the key-format check is at least 16 characters long and
uses only the admitted characters. -/
theorem valid_format_props {s : PyStr} (h : isValidFormat s = true) :
    16 ≤ s.length ∧ ∀ c ∈ s, (c.isAlphanum || c == '-' || c == '_') = true := by
  unfold isValidFormat at h
  split at h
  next hlen =>
    refine ⟨hlen.1, fun c hc => ?_⟩
    have := List.all_eq_true.mp h c hc
    simpa using this
  next => exact absurd h (by simp)

/-- A valid-format token never starts with a case-insensitive bearer
marker: its seventh character cannot lower-case to a space. -/
theorem not_bearer_of_valid {s : PyStr} (h : isValidFormat s = true) :
    pyStartsWith (pyLower s) "bearer ".toList = false := by
  obtain ⟨_, hchars⟩ := valid_format_props h
  unfold pyStartsWith pyLower
  rw [decide_eq_false_iff_not]
  intro hEq
  have hsp : ' ' ∈ (List.map pyLowerChar s).take ("bearer ".toList.length) := by
    rw [hEq]; decide
  have hsp2 : ' ' ∈ List.map pyLowerChar s := List.take_subset _ _ hsp
  obtain ⟨c, hcm, hcl⟩ := List.mem_map.mp hsp2
  exact (allowed_char_props (hchars c hcm)).2 hcl

/-- On a valid-format token sent bare, the extraction of `validate` returns
the token unchanged. -/
theorem extractApiKey_bare {s : PyStr} (h : isValidFormat s = true) :
    extractApiKey s = s := by
  obtain ⟨_, hchars⟩ := valid_format_props h
  unfold extractApiKey
  rw [not_bearer_of_valid h]
  simp only [Bool.false_eq_true, if_false]
  exact strip_of_no_space (fun c hc => (allowed_char_props (hchars c hc)).1)

/-- On a valid-format token sent as `Bearer <token>`, the extraction of
`validate` strips the marker and returns the token. -/
theorem extractApiKey_with_bearer {s : PyStr} (h : isValidFormat s = true) :
    extractApiKey ("Bearer ".toList ++ s) = s := by
  obtain ⟨_, hchars⟩ := valid_format_props h
  unfold extractApiKey
  have hpre : pyStartsWith (pyLower ("Bearer ".toList ++ s))
      "bearer ".toList = true := by
    unfold pyStartsWith pyLower
    rw [List.map_append]
    have hmap : List.map pyLowerChar "Bearer ".toList = "bearer ".toList := by
      decide
    rw [hmap, List.take_left]
    simp
  rw [hpre]
  have hdrop : ("Bearer ".toList ++ s).drop 7 = s := by
    have h7 : ("Bearer ".toList).length = 7 := by decide
    rw [← h7, List.drop_left]
  simp only [if_true]
  rw [hdrop]
  exact strip_of_no_space (fun c hc => (allowed_char_props (hchars c hc)).1)

/-- Claim C9 (status: confirmed).  A request sending a valid-format stored
secret bare in the Authorization header validates exactly like one sending
`Bearer <secret>`: the extraction yields the same key either way, so the
whole validation — lookup, expiration, rate limiting, state update — is
identical. -/
theorem C9_bare_token_equals_bearer (st : VState) (nowDt now : ℚ)
    (secret : PyStr) (hfmt : isValidFormat secret = true) :
    validate st nowDt now [("authorization".toList, secret)]
      = validate st nowDt now
          [("authorization".toList, "Bearer ".toList ++ secret)] := by
  have hne : secret ≠ [] := by
    obtain ⟨hlen, _⟩ := valid_format_props hfmt
    intro hnil
    rw [hnil] at hlen
    simp at hlen
  have hbne : "Bearer ".toList ++ secret ≠ [] := by simp
  by_cases hen : st.enabled = false
  · simp only [validate, if_pos hen]
  · by_cases hk : st.keys = []
    · simp only [validate, if_neg hen, if_pos hk]
    · have he2 : extractApiKey
          ('B' :: 'e' :: 'a' :: 'r' :: 'e' :: 'r' :: ' ' :: secret) = secret :=
        extractApiKey_with_bearer hfmt
      simp [validate, hen, hk, alookup, hne, hbne,
        extractApiKey_bare hfmt, he2]

/-- Witness for C9 at a concrete validator state and secret. -/
theorem C9_bare_token_equals_bearer_witness :
    validate
      ⟨true, [("sk-prod-abc123de".toList, "production".toList)], [], [], [], 100, 0⟩
      0 0 [("authorization".toList, "sk-prod-abc123de".toList)]
    = validate
      ⟨true, [("sk-prod-abc123de".toList, "production".toList)], [], [], [], 100, 0⟩
      0 0 [("authorization".toList, "Bearer sk-prod-abc123de".toList)] := by
  have h := C9_bare_token_equals_bearer
    ⟨true, [("sk-prod-abc123de".toList, "production".toList)], [], [], [], 100, 0⟩
    0 0 "sk-prod-abc123de".toList (by decide)
  have hs : "Bearer ".toList ++ "sk-prod-abc123de".toList
      = "Bearer sk-prod-abc123de".toList := by decide
  rw [hs] at h
  exact h

/-- Shape of one `_check_rate_limit` call on a validator whose rate map is
empty or holds exactly this key's timestamps: whatever the periodic cleanup
does, the key's entry ends up as its 60-second-window filtering, and the
verdict compares the filtered count against the effective limit. -/
theorem checkRateLimit_shape (st0 : VState) (M : List (PyStr × List ℚ))
    (lc : ℚ) (kid : PyStr) (now : ℚ) (pre : List ℚ)
    (hmap : (M = [] ∧ pre = []) ∨ M = [(kid, pre)]) :
    ∃ lc' : ℚ,
      checkRateLimit kid now { st0 with rateLimiter := M, lastCleanup := lc }
        = ((if (alookup st0.keyRateLimits kid).getD st0.maxRequestsPerMinute
                ≤ ((pre.filter (fun a => decide (now - 60 < a))).length : Int)
            then false else true),
           { st0 with
             rateLimiter := [(kid, pre.filter (fun a => decide (now - 60 < a)))],
             lastCleanup := lc' }) := by
  rcases hmap with ⟨hM, hpre⟩ | hM
  · subst hM; subst hpre
    unfold checkRateLimit cleanupRateLimiter
    by_cases hcl : now - lc < CLEANUP_INTERVAL
    · refine ⟨lc, ?_⟩
      simp [hcl, alookup, aset]
      split_ifs with hcmp <;> simp [hcmp]
    · refine ⟨now, ?_⟩
      simp [hcl, alookup, aset]
      split_ifs with hcmp <;> simp [hcmp]
  · subst hM
    unfold checkRateLimit cleanupRateLimiter
    by_cases hcl : now - lc < CLEANUP_INTERVAL
    · refine ⟨lc, ?_⟩
      simp [hcl, alookup, aset]
      split_ifs with hcmp <;> simp [hcmp]
    · by_cases hany : pre.any (fun ts => decide (now - 60 < ts)) = true
      · refine ⟨now, ?_⟩
        simp [hcl, hany, alookup, aset]
        split_ifs with hcmp <;> simp [hcmp]
      · have hall : ∀ a ∈ pre, ¬(now - 60 < a) := by
          intro a ha hlt
          exact hany (List.any_eq_true.mpr ⟨a, ha, by simpa using hlt⟩)
        have hfilt : pre.filter (fun a => decide (now - 60 < a)) = [] :=
          List.filter_eq_nil_iff.mpr (fun a ha => by simpa using hall a ha)
        refine ⟨now, ?_⟩
        rw [hfilt]
        have hanyf : pre.any (fun ts => decide (now - 60 < ts)) = false := by
          cases h : pre.any (fun ts => decide (now - 60 < ts)) with
          | false => rfl
          | true => exact absurd h hany
        simp [hcl, hanyf, alookup, aset, hfilt]
        split_ifs with hcmp <;> simp [hcmp]

/-- For a bearer request carrying a known, unexpired, valid-format stored
secret, `validate` reduces to its rate-limit core: fail with
`rate_limit_exceeded` when `_check_rate_limit` says so, else record the
request and return the key_id. -/
theorem validate_reduce (st : VState) (nowDt now : ℚ) (secret kid : PyStr)
    (hen : st.enabled = true)
    (hfmt : isValidFormat secret = true)
    (hfind : findKey st.keys secret = some kid)
    (hexp : isKeyExpired kid nowDt st = false) :
    validate st nowDt now (bearerHeaders secret)
      = if (checkRateLimit kid now st).1 = false
        then ((false, "rate_limit_exceeded".toList), (checkRateLimit kid now st).2)
        else ((true, kid), recordRequest kid now (checkRateLimit kid now st).2) := by
  have hkne : st.keys ≠ [] := by
    intro h
    rw [h] at hfind
    simp [findKey] at hfind
  have hne : secret ≠ [] := by
    obtain ⟨hlen, _⟩ := valid_format_props hfmt
    intro hnil
    rw [hnil] at hlen
    simp at hlen
  have he2 : extractApiKey
      ('B' :: 'e' :: 'a' :: 'r' :: 'e' :: 'r' :: ' ' :: secret) = secret :=
    extractApiKey_with_bearer hfmt
  simp [validate, bearerHeaders, alookup, hen, hkne, hne, he2, hfmt, hfind, hexp]

/-- Shape of one `validate` call for a bearer request with a known stored
secret, on a validator whose rate map is empty or holds exactly this key's
timestamps: the request fails with `rate_limit_exceeded` when the filtered
window has reached the effective limit, and otherwise succeeds and appends
its timestamp. -/
theorem validate_shape (st0 : VState) (M : List (PyStr × List ℚ)) (lc : ℚ)
    (nowDt now : ℚ) (secret kid : PyStr) (pre : List ℚ)
    (hen : st0.enabled = true)
    (hfmt : isValidFormat secret = true)
    (hfind : findKey st0.keys secret = some kid)
    (hexp : isKeyExpired kid nowDt st0 = false)
    (hmap : (M = [] ∧ pre = []) ∨ M = [(kid, pre)]) :
    ∃ lc' : ℚ,
      validate { st0 with rateLimiter := M, lastCleanup := lc } nowDt now
          (bearerHeaders secret)
        = if (alookup st0.keyRateLimits kid).getD st0.maxRequestsPerMinute
              ≤ ((pre.filter (fun a => decide (now - 60 < a))).length : Int)
          then ((false, "rate_limit_exceeded".toList),
                { st0 with
                  rateLimiter :=
                    [(kid, pre.filter (fun a => decide (now - 60 < a)))],
                  lastCleanup := lc' })
          else ((true, kid),
                { st0 with
                  rateLimiter :=
                    [(kid, pre.filter (fun a => decide (now - 60 < a)) ++ [now])],
                  lastCleanup := lc' }) := by
  obtain ⟨lc', hcrl⟩ := checkRateLimit_shape st0 M lc kid now pre hmap
  refine ⟨lc', ?_⟩
  have hred := validate_reduce
    ({ st0 with rateLimiter := M, lastCleanup := lc } : VState)
    nowDt now secret kid hen hfmt hfind hexp
  rw [hred, hcrl]
  by_cases hcond : (alookup st0.keyRateLimits kid).getD st0.maxRequestsPerMinute
      ≤ ((pre.filter (fun a => decide (now - 60 < a))).length : Int)
  · rw [if_pos hcond, if_pos hcond]
    simp
  · rw [if_neg hcond, if_neg hcond]
    simp [recordRequest, alookup, aset]

/-- Running one bearer request per timestamp through `validate`: as long as
all timestamps lie inside one 60-second window and the key's recorded
prefix plus the remaining requests do not exceed the effective limit, every
request succeeds and the key's entry accumulates exactly the request
timestamps in order. -/
theorem runValidate_window (st0 : VState) (nowDt : ℚ) (secret kid : PyStr)
    (L : ℕ)
    (hen : st0.enabled = true)
    (hfmt : isValidFormat secret = true)
    (hfind : findKey st0.keys secret = some kid)
    (hexp : isKeyExpired kid nowDt st0 = false)
    (heff : (alookup st0.keyRateLimits kid).getD st0.maxRequestsPerMinute
      = (L : Int)) :
    ∀ (suf pre : List ℚ) (lc : ℚ),
      (∀ a ∈ pre ++ suf, ∀ b ∈ pre ++ suf, a - b < 60) →
      pre.length + suf.length ≤ L →
      ∃ lc' : ℚ,
        runValidate nowDt (bearerHeaders secret)
            { st0 with rateLimiter := [(kid, pre)], lastCleanup := lc } suf
          = (List.replicate suf.length (true, kid),
             { st0 with rateLimiter := [(kid, pre ++ suf)], lastCleanup := lc' }) := by
  intro suf
  induction suf with
  | nil =>
    intro pre lc _ _
    exact ⟨lc, by simp [runValidate]⟩
  | cons t rest ih =>
    intro pre lc hwin hlen
    obtain ⟨lc1, hstep⟩ := validate_shape st0 [(kid, pre)] lc nowDt t secret kid
      pre hen hfmt hfind hexp (Or.inr rfl)
    have hfilt : pre.filter (fun a => decide (t - 60 < a)) = pre := by
      apply List.filter_eq_self.mpr
      intro a ha
      have hlt : t - a < 60 :=
        hwin t (List.mem_append_right _ (List.mem_cons_self t rest)) a
          (List.mem_append_left _ ha)
      simp only [decide_eq_true_eq]
      linarith
    rw [hfilt] at hstep
    have hcount : ¬((alookup st0.keyRateLimits kid).getD st0.maxRequestsPerMinute
        ≤ (pre.length : Int)) := by
      rw [heff]
      have hl2 : pre.length + (rest.length + 1) ≤ L := by simpa using hlen
      omega
    rw [if_neg hcount] at hstep
    have hw2 : ∀ a ∈ (pre ++ [t]) ++ rest, ∀ b ∈ (pre ++ [t]) ++ rest,
        a - b < 60 := by
      have hEq : (pre ++ [t]) ++ rest = pre ++ t :: rest := by simp
      rw [hEq]
      exact hwin
    have hl3 : (pre ++ [t]).length + rest.length ≤ L := by
      simp only [List.length_append, List.length_singleton]
      have hl2 : pre.length + (rest.length + 1) ≤ L := by simpa using hlen
      omega
    obtain ⟨lc2, hrest⟩ := ih (pre ++ [t]) lc1 hw2 hl3
    refine ⟨lc2, ?_⟩
    simp only [runValidate]
    rw [hstep]
    simp only []
    rw [hrest]
    simp [List.replicate_succ]

/-- Claim C3 (status: confirmed).  For a stored key with effective rate
limit L (per-key override if present, else the process default — the
hypothesis `heff` covers both) and a fresh rate window: the first L bearer
requests inside one 60-second window all succeed and record their
timestamps in order; request L+1 inside the same window fails with
`rate_limit_exceeded`, which `authenticate_request` answers with 429 and
`Retry-After: 60`; and once every recorded timestamp is at least 60 seconds
old, the next request succeeds again. -/
theorem C3_rate_limit_window
    (st0 : VState) (nowDt : ℚ) (secret kid : PyStr) (L : ℕ)
    (ts : List ℚ) (tNext tLater : ℚ)
    (hen : st0.enabled = true)
    (hfmt : isValidFormat secret = true)
    (hfind : findKey st0.keys secret = some kid)
    (hexp : isKeyExpired kid nowDt st0 = false)
    (hfresh : st0.rateLimiter = [])
    (hL : 0 < L)
    (heff : (alookup st0.keyRateLimits kid).getD st0.maxRequestsPerMinute
      = (L : Int))
    (hlen : ts.length = L)
    (hwin : ∀ a ∈ ts ++ [tNext], ∀ b ∈ ts ++ [tNext], a - b < 60)
    (hlater : ∀ a ∈ ts, a ≤ tLater - 60) :
    (runValidate nowDt (bearerHeaders secret) st0 ts).1
        = List.replicate L (true, kid)
    ∧ alookup (runValidate nowDt (bearerHeaders secret) st0 ts).2.rateLimiter
        kid = some ts
    ∧ (validate (runValidate nowDt (bearerHeaders secret) st0 ts).2 nowDt tNext
        (bearerHeaders secret)).1 = (false, "rate_limit_exceeded".toList)
    ∧ authErrorResponse "rate_limit_exceeded".toList = rateLimitErrorResponse
    ∧ rateLimitErrorResponse.status = 429
    ∧ rateLimitErrorResponse.retryAfter = some 60
    ∧ (validate
        (validate (runValidate nowDt (bearerHeaders secret) st0 ts).2 nowDt
          tNext (bearerHeaders secret)).2
        nowDt tLater (bearerHeaders secret)).1 = (true, kid) := by
  rcases ts with _ | ⟨t1, rest⟩
  · exfalso
    rw [List.length_nil] at hlen
    omega
  · have hst0 : ({ st0 with
        rateLimiter := ([] : List (PyStr × List ℚ))
        lastCleanup := st0.lastCleanup } : VState) = st0 := by
      rw [← hfresh]
    obtain ⟨lc1, hstep1⟩ := validate_shape st0 [] st0.lastCleanup nowDt t1
      secret kid [] hen hfmt hfind hexp (Or.inl ⟨rfl, rfl⟩)
    rw [hst0] at hstep1
    have hcount1 : ¬((alookup st0.keyRateLimits kid).getD
        st0.maxRequestsPerMinute
        ≤ ((([] : List ℚ).filter (fun a => decide (t1 - 60 < a))).length : Int)) := by
      rw [heff]
      simp
      omega
    rw [if_neg hcount1] at hstep1
    simp only [List.filter_nil, List.nil_append] at hstep1
    have hw2 : ∀ a ∈ [t1] ++ rest, ∀ b ∈ [t1] ++ rest, a - b < 60 := by
      intro a ha b hb
      exact hwin a (List.mem_append_left _ (by simpa using ha)) b
        (List.mem_append_left _ (by simpa using hb))
    have hl2 : ([t1] : List ℚ).length + rest.length ≤ L := by
      simp only [List.length_singleton]
      rw [List.length_cons] at hlen
      omega
    obtain ⟨lcF, hrun⟩ := runValidate_window st0 nowDt secret kid L hen hfmt
      hfind hexp heff rest [t1] lc1 hw2 hl2
    have hrunAll :
        runValidate nowDt (bearerHeaders secret) st0 (t1 :: rest)
          = ((true, kid) :: List.replicate rest.length (true, kid),
             { st0 with
               rateLimiter := [(kid, t1 :: rest)]
               lastCleanup := lcF }) := by
      simp only [runValidate]
      rw [hstep1]
      simp only []
      rw [hrun]
      simp
    rw [hrunAll]
    have hfiltNext : (t1 :: rest).filter (fun a => decide (tNext - 60 < a))
        = t1 :: rest := by
      apply List.filter_eq_self.mpr
      intro a ha
      have hlt : tNext - a < 60 :=
        hwin tNext (List.mem_append_right _ (List.mem_singleton_self tNext)) a
          (List.mem_append_left _ ha)
      simp only [decide_eq_true_eq]
      linarith
    obtain ⟨lcG, hstepN⟩ := validate_shape st0 [(kid, t1 :: rest)] lcF nowDt
      tNext secret kid (t1 :: rest) hen hfmt hfind hexp (Or.inr rfl)
    rw [hfiltNext] at hstepN
    have hcountN : (alookup st0.keyRateLimits kid).getD
        st0.maxRequestsPerMinute ≤ ((t1 :: rest).length : Int) := by
      rw [heff, hlen]
    rw [if_pos hcountN] at hstepN
    rw [hstepN]
    have hfiltLater : (t1 :: rest).filter (fun a => decide (tLater - 60 < a))
        = [] := by
      apply List.filter_eq_nil_iff.mpr
      intro a ha
      have := hlater a ha
      simp only [decide_eq_true_eq]
      intro hlt
      linarith
    obtain ⟨lcH, hstepL⟩ := validate_shape st0 [(kid, t1 :: rest)] lcG nowDt
      tLater secret kid (t1 :: rest) hen hfmt hfind hexp (Or.inr rfl)
    rw [hfiltLater] at hstepL
    have hcountL : ¬((alookup st0.keyRateLimits kid).getD
        st0.maxRequestsPerMinute
        ≤ ((([] : List ℚ).length : Nat) : Int)) := by
      rw [heff]
      simp
      omega
    rw [if_neg hcountL] at hstepL
    refine ⟨?_, ?_, ?_, rfl, rfl, rfl, ?_⟩
    · rw [List.length_cons] at hlen
      rw [← hlen]
      simp [List.replicate_succ]
    · simp [alookup]
    · simp
    · rw [hstepL]

/-- Witness for C3: a key with effective limit 2 (no per-key override,
process default 2): requests at t=0 and t=1 succeed, the third request at
t=2 is rejected with `rate_limit_exceeded` → 429 `Retry-After: 60`, and a
request at t=100 (both timestamps ≥60s old) succeeds again. -/
theorem C3_rate_limit_window_witness :
    (runValidate 0 (bearerHeaders "sk-prod-abc123de".toList)
        ⟨true, [("sk-prod-abc123de".toList, "production".toList)], [], [], [],
          2, 0⟩ [0, 1]).1
      = List.replicate 2 (true, "production".toList)
    ∧ (validate (runValidate 0 (bearerHeaders "sk-prod-abc123de".toList)
        ⟨true, [("sk-prod-abc123de".toList, "production".toList)], [], [], [],
          2, 0⟩ [0, 1]).2 0 2
        (bearerHeaders "sk-prod-abc123de".toList)).1
      = (false, "rate_limit_exceeded".toList)
    ∧ authErrorResponse "rate_limit_exceeded".toList = rateLimitErrorResponse
    ∧ rateLimitErrorResponse.status = 429
    ∧ rateLimitErrorResponse.retryAfter = some 60
    ∧ (validate
        (validate (runValidate 0 (bearerHeaders "sk-prod-abc123de".toList)
          ⟨true, [("sk-prod-abc123de".toList, "production".toList)], [], [], [],
            2, 0⟩ [0, 1]).2 0 2
          (bearerHeaders "sk-prod-abc123de".toList)).2
        0 100 (bearerHeaders "sk-prod-abc123de".toList)).1
      = (true, "production".toList) := by
  have h := C3_rate_limit_window
    ⟨true, [("sk-prod-abc123de".toList, "production".toList)], [], [], [], 2, 0⟩
    0 "sk-prod-abc123de".toList "production".toList 2 [0, 1] 2 100
    rfl (by decide) (by decide) rfl rfl (by decide) (by decide) rfl
    (by intro a ha b hb; fin_cases ha <;> fin_cases hb <;> norm_num)
    (by intro a ha; fin_cases ha <;> norm_num)
  exact ⟨h.1, h.2.2.1, h.2.2.2.1, h.2.2.2.2.1, h.2.2.2.2.2.1, h.2.2.2.2.2.2⟩

/-- Claim C10 (status: confirmed).  Whenever `proxy_request` completes
without an exception it logs the literal status 200 no matter what status
the backend actually returned (404 and 500 included), while the
connect-failure branch and the broad exception handler both log 502. -/
theorem C10_access_log_status (m : MetricsSt) :
    (∀ backendStatus : Nat,
      (proxyRequest (.completes backendStatus) m).loggedStatus = 200)
    ∧ (proxyRequest (.completes 404) m).loggedStatus = 200
    ∧ (proxyRequest (.completes 500) m).loggedStatus = 200
    ∧ (proxyRequest .connectFail m).loggedStatus = 502
    ∧ (proxyRequest .connectFail m).gatewayErrorStatus = some 502
    ∧ (proxyRequest .exceptionMidway m).loggedStatus = 502
    ∧ (proxyRequest .exceptionMidway m).gatewayErrorStatus = some 502 := by
  exact ⟨fun _ => rfl, rfl, rfl, rfl, rfl, rfl, rfl⟩
